import Mathlib

/-!
Shallow embedding of the casino bot's economy core (ledger, streak/reward
engine, tier/limit engine, slots payout, group-pot settlement, leaderboard
rank) together with proofs about the embedded operations.

Conventions:
* Machine integers are modelled as `Int` (Python ints are unbounded).
* Python `float` arithmetic (used only in the streak-reward multiplier) is
  modelled exactly: IEEE-754 binary64 values are represented as the rationals
  they denote, and each arithmetic step is followed by correct rounding to
  53 significant bits (round to nearest, ties to even).  The model is valid
  for magnitudes in the normal range `(2^-20, 2^20)`, which covers every
  value arising in the reward formulas.
* Timestamps are modelled as local wall-clock times in the configured
  timezone under a fixed UTC offset (no DST transitions): a `LocalTime` is a
  calendar day index plus minutes past local midnight.  All comparisons in
  the source go through chronological order, modelled by `LocalTime.toMin`.
* Database state is explicit: a list of user rows plus an append-only
  transaction list; fallible operations return `Except`.
-/

namespace Casino

/-! ## Configuration constants (config.py) -/

def STARTING_BALANCE : Int := 50000
def DAILY_REWARD : Int := 10000
def DAILY_RESET_HOUR : Int := 3
def HOURLY_REWARD : Int := 1000
def DAILY_STREAK_DAY7_REWARD : Int := 20000
def DAILY_STREAK_MAX_BONUS_DAY : Int := 7
def DAILY_STREAK_INSURANCE_COST : Int := 25000
def HOURLY_STREAK_MAX_REWARD : Int := 1500
def HOURLY_STREAK_MAX_BONUS_HOUR : Int := 5
def HOURLY_STREAK_MISSED_THRESHOLD : Int := 2
def SLOT_PAYOUT_FIVE_JACKPOT : Int := 777
def SLOT_PAYOUT_FIVE_HIGH : Int := 20
def SLOT_PAYOUT_FIVE_MID : Int := 10
def SLOT_PAYOUT_FOUR_MATCH : Int := 5
def SLOT_PAYOUT_THREE_MATCH : Int := 2
def SLOT_PAYOUT_DEATH : Int := -3
def XP_DIVISOR : Int := 10

/-! ## Exact model of IEEE-754 binary64 arithmetic

A binary64 value is a dyadic rational; we represent it (non-uniquely) as
`num / 2^exp`.  Exact intermediate results of `+` and `*` on dyadics are
again dyadic, and each operation of the source is followed by correct
rounding to 53 significant bits (round to nearest, ties to even), which is
exactly IEEE-754 binary64 arithmetic for magnitudes in the normal range.
Everything is `Int`/`Nat` arithmetic, so proofs can evaluate it. -/

deriving instance DecidableEq for Except

/-- A dyadic rational `num / 2^exp`. -/
structure Dyadic where
  num : Int
  exp : Nat
deriving DecidableEq, Repr

def dyOfInt (n : Int) : Dyadic := ⟨n, 0⟩

/-- Exact product of dyadics. -/
def dyMul (a b : Dyadic) : Dyadic := ⟨a.num * b.num, a.exp + b.exp⟩

/-- Exact sum of dyadics. -/
def dyAdd (a b : Dyadic) : Dyadic :=
  let e := max a.exp b.exp
  ⟨a.num * 2 ^ (e - a.exp) + b.num * 2 ^ (e - b.exp), e⟩

/-- Is `2^e ≤ num/den`?  (`num`, `den` positive, cross-multiplied.) -/
def pow2LeFrac (num den : Int) (e : Int) : Bool :=
  if 0 ≤ e then den * 2 ^ e.toNat ≤ num else den ≤ num * 2 ^ (-e).toNat

/-- The binade exponent of the positive fraction `num/den`: the unique `e`
with `2^e ≤ num/den < 2^(e+1)`, found by bounded search over `[-20, 20)`.
Valid for values in that range, which covers every float value arising in
the reward formulas. -/
def binadeOfFrac (num den : Int) : Int :=
  (List.range 40).foldl
    (fun acc i =>
      let e : Int := (i : Int) - 20
      if pow2LeFrac num den e ∧ ¬pow2LeFrac num den (e + 1) then e else acc) 0

/-- Correctly round the positive fraction `num/den` to the IEEE-754 binary64
grid: the rounded value is a multiple of `2^(binade - 52)` (53 significant
bits), rounding to nearest with ties to even. -/
def floatOfPosFrac (num den : Int) : Dyadic :=
  let e := binadeOfFrac num den
  let t : Nat := (52 - e).toNat
  let k := Int.fdiv (num * 2 ^ t) den
  let r := num * 2 ^ t - k * den
  if 2 * r < den then ⟨k, t⟩
  else if den < 2 * r then ⟨k + 1, t⟩
  else if k % 2 = 0 then ⟨k, t⟩ else ⟨k + 1, t⟩

/-- Correct rounding of an exact dyadic intermediate result to binary64. -/
def fpRound (d : Dyadic) : Dyadic :=
  if d.num = 0 then ⟨0, 0⟩
  else if 0 < d.num then floatOfPosFrac d.num (2 ^ d.exp)
  else
    let r := floatOfPosFrac (-d.num) (2 ^ d.exp)
    ⟨-r.num, r.exp⟩

/-- Python `int(_)` on a float value: truncation toward zero. -/
def pyTrunc (d : Dyadic) : Int :=
  if 0 ≤ d.num then Int.fdiv d.num (2 ^ d.exp)
  else -(Int.fdiv (-d.num) (2 ^ d.exp))

/-- The float literal `0.10` (config.DAILY_STREAK_BONUS_PER_DAY and
config.HOURLY_STREAK_BONUS_PER_HOUR): the binary64 value nearest 1/10. -/
def BONUS_PER_STEP : Dyadic := floatOfPosFrac 1 10

/-! ## Streak reward functions (crud.py: calculate_daily_reward,
calculate_hourly_reward) -/

/-- crud.calculate_daily_reward.  The float steps of
`int(DAILY_REWARD * (1.0 + BONUS * (streak - 1)))` are each correctly
rounded, as in the source's binary64 arithmetic. -/
def calculate_daily_reward (streak : Int) : Int :=
  let s := if streak ≤ 0 then 1 else streak
  if DAILY_STREAK_MAX_BONUS_DAY ≤ s then DAILY_STREAK_DAY7_REWARD
  else
    let bonus_multiplier := fpRound (dyAdd (dyOfInt 1) (fpRound (dyMul BONUS_PER_STEP (dyOfInt (s - 1)))))
    pyTrunc (fpRound (dyMul (dyOfInt DAILY_REWARD) bonus_multiplier))

/-- crud.calculate_hourly_reward, analogously. -/
def calculate_hourly_reward (streak : Int) : Int :=
  let s := if streak ≤ 0 then 1 else streak
  if HOURLY_STREAK_MAX_BONUS_HOUR ≤ s then HOURLY_STREAK_MAX_REWARD
  else
    let bonus_multiplier := fpRound (dyAdd (dyOfInt 1) (fpRound (dyMul BONUS_PER_STEP (dyOfInt (s - 1)))))
    pyTrunc (fpRound (dyMul (dyOfInt HOURLY_REWARD) bonus_multiplier))

/-! ## Local wall-clock time model

The source converts every stored timestamp to the configured timezone and
then does wall-clock arithmetic (`replace(hour=...)`, `± timedelta`,
comparisons, `.days`).  Under a fixed UTC offset this is linear arithmetic
on (day, minute-of-day); `LocalTime.toMin` is the chronological value used
by every comparison. -/

structure LocalTime where
  day : Int
  minute : Int
deriving DecidableEq, Repr

/-- Chronological value: minutes since the local epoch. -/
def LocalTime.toMin (t : LocalTime) : Int := t.day * 1440 + t.minute

/-- A well-formed wall-clock time has a minute-of-day in `[0, 1440)`. -/
def LocalTime.wf (t : LocalTime) : Prop := 0 ≤ t.minute ∧ t.minute < 1440

instance (t : LocalTime) : Decidable t.wf := by unfold LocalTime.wf; infer_instance

/-- `t.replace(hour=h, minute=0, second=0, microsecond=0)`. -/
def LocalTime.atHour (t : LocalTime) (h : Int) : LocalTime := ⟨t.day, h * 60⟩

/-- `t - timedelta(days=n)`. -/
def LocalTime.subDays (t : LocalTime) (n : Int) : LocalTime := ⟨t.day - n, t.minute⟩

/-- `t + timedelta(days=n)`. -/
def LocalTime.addDays (t : LocalTime) (n : Int) : LocalTime := ⟨t.day + n, t.minute⟩

/-- `t + timedelta(minutes=m)` (chronologically; day carry is irrelevant
because all observations go through `toMin`). -/
def LocalTime.addMinutes (t : LocalTime) (m : Int) : LocalTime := ⟨t.day, t.minute + m⟩

/-- Python `a < b` on timezone-aware datetimes: chronological order. -/
def LocalTime.before (a b : LocalTime) : Bool := a.toMin < b.toMin

/-- `(a - b).days`: floor of the difference in whole days. -/
def daysBetween (a b : LocalTime) : Int := Int.fdiv (a.toMin - b.toMin) 1440

/-- The start of the daily reset window containing `t`: today's reset
instant, pushed back one day when `t` precedes it.  This is the
`current_period_start` computation of crud.can_claim_daily and
crud.check_daily_streak_status (and the misnamed `previous_period_start`
of crud.purchase_daily_streak_insurance). -/
def currentPeriodStart (t : LocalTime) : LocalTime :=
  let todayReset := t.atHour DAILY_RESET_HOUR
  if t.before todayReset then todayReset.subDays 1 else todayReset

/-- The next daily reset instant strictly after the window containing `t`
(crud.can_claim_daily's `next_reset`). -/
def nextResetOf (t : LocalTime) : LocalTime :=
  let todayReset := t.atHour DAILY_RESET_HOUR
  if t.before todayReset then todayReset else todayReset.addDays 1

/-! ## Daily claim / streak window logic (crud.py), pure in
`(last_daily, now)` -/

/-- crud.can_claim_daily: claim allowed iff the last claim predates the
start of the current reset window.  Returns (can_claim, remaining minutes
until next reset when blocked). -/
def can_claim_daily (last_daily : Option LocalTime) (now : LocalTime) :
    Bool × Option Int :=
  match last_daily with
  | none => (true, none)
  | some last =>
    if last.before (currentPeriodStart now) then (true, none)
    else (false, some ((nextResetOf now).toMin - now.toMin))

/-- crud.check_daily_streak_status: the daily streak is broken iff more
than one full reset window was skipped.  Returns (is_broken, missed). -/
def check_daily_streak_status (last_daily : Option LocalTime) (now : LocalTime) :
    Bool × Int :=
  match last_daily with
  | none => (false, 0)
  | some last =>
    let curStart := currentPeriodStart now
    if !(last.before curStart) then (false, 0)
    else
      let lastStart := currentPeriodStart last
      let daysDiff := daysBetween curStart lastStart
      (decide (1 < daysDiff), max 0 (daysDiff - 1))

/-! ## Ledger store (models.py + crud.py)

A user row keeps the economy fields the verified operations touch; a
transaction row is `(user_id, amount, reason, ref_game_id)` (the
timestamp column plays no role in the verified claims).  The database is a
list of user rows keyed by id plus the append-only transaction log. -/

inductive TransactionReason
  | INITIAL_GRANT
  | DAILY_REWARD_R
  | SLOTS_WIN
  | SLOTS_LOSS
  | GROUP_POT_WIN
  | GROUP_POT_LOSS
  | ADMIN_ADJUSTMENT
  | DAILY_STREAK_INSURANCE
  | HOURLY_STREAK_INSURANCE
deriving DecidableEq, Repr

structure UserRec where
  balance : Int
  lifetime_earned : Int
  lifetime_lost : Int
  last_daily : Option LocalTime
  daily_streak : Int
  daily_streak_best : Int
deriving DecidableEq, Repr

structure TransactionRec where
  user_id : Nat
  amount : Int
  reason : TransactionReason
  ref_game_id : Option Nat
deriving DecidableEq, Repr

structure DB where
  users : List (Nat × UserRec)
  transactions : List TransactionRec
deriving DecidableEq, Repr

/-- crud.get_user_by_id. -/
def getUser (db : DB) (uid : Nat) : Option UserRec :=
  (db.users.find? (fun p => p.1 == uid)).map Prod.snd

/-- Overwrite the row with key `uid` (SQL UPDATE semantics). -/
def setUser (db : DB) (uid : Nat) (u : UserRec) : DB :=
  { db with users := db.users.map (fun p => if p.1 == uid then (p.1, u) else p) }

/-- crud.update_user_balance: add the signed amount to the balance, bump
the lifetime counters, and append exactly one transaction row; fails
without touching anything when the user id does not exist. -/
def update_user_balance (db : DB) (uid : Nat) (amount : Int)
    (reason : TransactionReason) (gid : Option Nat) : Except String DB :=
  match getUser db uid with
  | none => .error "user not found"
  | some u =>
    let u1 :=
      if 0 < amount then
        { u with balance := u.balance + amount,
                 lifetime_earned := u.lifetime_earned + amount }
      else
        { u with balance := u.balance + amount,
                 lifetime_lost := u.lifetime_lost + |amount| }
    .ok { setUser db uid u1 with
          transactions := db.transactions ++ [⟨uid, amount, reason, gid⟩] }

/-- crud.create_user: a fresh row with the starting balance, plus the
initial-grant transaction. -/
def create_user (db : DB) (uid : Nat) (starting_balance : Int) : DB :=
  { users := db.users ++
      [(uid, { balance := starting_balance,
               lifetime_earned := starting_balance,
               lifetime_lost := 0, last_daily := none,
               daily_streak := 0, daily_streak_best := 0 })],
    transactions := db.transactions ++
      [⟨uid, starting_balance, TransactionReason.INITIAL_GRANT, none⟩] }

/-- One requested ledger mutation. -/
structure LedgerOp where
  uid : Nat
  amount : Int
  reason : TransactionReason
  gid : Option Nat
deriving DecidableEq, Repr

/-- Run one mutation; a failed mutation (unknown account) raises in the
source before touching anything, leaving the state unchanged. -/
def applyOp (db : DB) (op : LedgerOp) : DB :=
  match update_user_balance db op.uid op.amount op.reason op.gid with
  | .ok db1 => db1
  | .error _ => db

/-- A sequence of ledger mutations. -/
def applyOps (db : DB) (ops : List LedgerOp) : DB := ops.foldl applyOp db

/-- Sum of the transaction amounts recorded for one account. -/
def txnAmountSum (uid : Nat) (txns : List TransactionRec) : Int :=
  ((txns.filter (fun t => t.user_id == uid)).map TransactionRec.amount).sum

/-! ## DB-level claim and streak operations (crud.py) -/

/-- crud.update_last_daily: store "now" as the last daily claim. -/
def update_last_daily (db : DB) (uid : Nat) (now : LocalTime) : DB :=
  let f := fun (p : Nat × UserRec) =>
    if p.1 == uid then (p.1, { p.2 with last_daily := some now }) else p
  { db with users := db.users.map f }

/-- crud.can_claim_daily at the database level. -/
def can_claim_daily_db (db : DB) (uid : Nat) (now : LocalTime) :
    Except String (Bool × Option Int) :=
  match getUser db uid with
  | none => .error "user not found"
  | some u => .ok (can_claim_daily u.last_daily now)

/-- crud.update_daily_streak: reset to 1 on a broken track, else
increment; track the personal best; reward from the new streak. -/
def update_daily_streak (db : DB) (uid : Nat) (now : LocalTime) :
    Except String (DB × Int × Int × Bool) :=
  match getUser db uid with
  | none => .error "user not found"
  | some u =>
    let is_broken := (check_daily_streak_status u.last_daily now).1
    let new_streak := if is_broken then 1 else u.daily_streak + 1
    let is_personal_best := decide (u.daily_streak_best < new_streak)
    let new_best := max new_streak u.daily_streak_best
    let f := fun (p : Nat × UserRec) =>
      if p.1 == uid then
        (p.1, { p.2 with daily_streak := new_streak, daily_streak_best := new_best })
      else p
    let db1 := { db with users := db.users.map f }
    let reward := calculate_daily_reward new_streak
    .ok (db1, new_streak, reward, is_personal_best)

/-- crud.purchase_daily_streak_insurance: only when the streak is broken
and the balance covers the cost; debits the cost through the ledger and
rewrites `last_daily` to one minute after the start of the *current*
window (the source's `previous_period_start` variable holds the current
window's start). -/
def purchase_daily_streak_insurance (db : DB) (uid : Nat) (now : LocalTime) :
    Except String (Bool × DB) :=
  match getUser db uid with
  | none => .error "user not found"
  | some u =>
    let is_broken := (check_daily_streak_status u.last_daily now).1
    if !is_broken then .ok (false, db)
    else if u.balance < DAILY_STREAK_INSURANCE_COST then .ok (false, db)
    else
      match update_user_balance db uid (-DAILY_STREAK_INSURANCE_COST)
          TransactionReason.DAILY_STREAK_INSURANCE none with
      | .error e => .error e
      | .ok db1 =>
        let previous_period_start := currentPeriodStart now
        let restored_time := previous_period_start.addMinutes 1
        .ok (true, update_last_daily db1 uid restored_time)

/-- crud.get_user_rank: 1 plus the number of rows with a strictly larger
balance (0 for an unknown id). -/
def get_user_rank (db : DB) (uid : Nat) : Nat :=
  match getUser db uid with
  | none => 0
  | some u => (db.users.filter (fun p => u.balance < p.2.balance)).length + 1

/-! ## Tier / bet-limit engine (utils/tier_system.py) -/

structure TierInfo where
  tier_number : Nat
  max_bet : Int
  min_balance : Int
  max_balance : Option Int
  min_xp : Int
  max_xp : Option Int
deriving DecidableEq, Repr

/-- TIER_DEFINITIONS[0] ("Newcomer"); also the fallback tier.  The
display-only name/emoji columns are omitted. -/
def firstTier : TierInfo := ⟨1, 5000, 0, some 100000, 0, some 5000⟩

def TIER_DEFINITIONS : List TierInfo :=
  [firstTier,
   ⟨2, 15000, 100001, some 300000, 5000, some 20000⟩,
   ⟨3, 40000, 300001, some 750000, 20000, some 75000⟩,
   ⟨4, 100000, 750001, some 2000000, 75000, some 250000⟩,
   ⟨5, 300000, 2000001, some 5000000, 250000, some 750000⟩,
   ⟨6, 750000, 5000001, some 10000000, 750000, some 2000000⟩,
   ⟨7, 999999999, 10000001, none, 2000000, none⟩]

/-- The balance-range test of tier_system.get_balance_tier: inclusive on
both ends, open-ended for the top tier. -/
def matchesBalance (balance : Int) (t : TierInfo) : Bool :=
  match t.max_balance with
  | none => decide (t.min_balance ≤ balance)
  | some mx => decide (t.min_balance ≤ balance) && decide (balance ≤ mx)

/-- tier_system.get_balance_tier: first matching tier, defaulting to the
lowest tier when no range matches. -/
def get_balance_tier (balance : Int) : TierInfo :=
  match TIER_DEFINITIONS.find? (matchesBalance balance) with
  | some t => t
  | none => firstTier

/-- The XP-range test of tier_system.get_level_tier: inclusive lower bound,
strict upper bound, open-ended for the top tier. -/
def matchesXp (xp : Int) (t : TierInfo) : Bool :=
  match t.max_xp with
  | none => decide (t.min_xp ≤ xp)
  | some mx => decide (t.min_xp ≤ xp) && decide (xp < mx)

/-- tier_system.get_level_tier: first matching tier, defaulting to the
lowest tier when no range matches. -/
def get_level_tier (xp : Int) : TierInfo :=
  match TIER_DEFINITIONS.find? (matchesXp xp) with
  | some t => t
  | none => firstTier

/-- tier_system.get_max_bet_limit: the minimum of the two ladder ceilings;
unlimited when the feature flag is off. -/
def get_max_bet_limit (enableBetLimits : Bool) (balance xp : Int) : Int :=
  if !enableBetLimits then 999999999
  else min (get_balance_tier balance).max_bet (get_level_tier xp).max_bet

/-! ## Slot machine payout (cogs/slots.py) -/

inductive SlotSymbol
  | cherry
  | lemon
  | star
  | diamond
  | skull
deriving DecidableEq, Repr

/-- Occurrences of symbol `s` on the reels. -/
def countSym (symbols : List SlotSymbol) (s : SlotSymbol) : Nat :=
  (symbols.filter (fun x => x == s)).length

/-- `max(symbol_counts.values())`: the largest same-symbol count. -/
def maxCount (symbols : List SlotSymbol) : Nat :=
  (symbols.map (countSym symbols)).foldl Nat.max 0

/-- The first dict key attaining the maximal count (dict insertion order is
first-occurrence order, so this is the first reel symbol whose count is
maximal). -/
def mostCommonSymbol (symbols : List SlotSymbol) : SlotSymbol :=
  (symbols.find? (fun s => countSym symbols s == maxCount symbols)).getD SlotSymbol.cherry

/-- Slots._calculate_payout on 5 reels: positive = win, negative = loss.
Note that the five-skull branch computes `-bet * SLOT_PAYOUT_DEATH` with
`SLOT_PAYOUT_DEATH = -3`. -/
def calculate_payout (symbols : List SlotSymbol) (bet : Int) : Int :=
  let mc := maxCount symbols
  let most := mostCommonSymbol symbols
  if mc == 5 then
    if most == SlotSymbol.skull then -bet * SLOT_PAYOUT_DEATH
    else if most == SlotSymbol.diamond then bet * SLOT_PAYOUT_FIVE_JACKPOT
    else if most == SlotSymbol.star then bet * SLOT_PAYOUT_FIVE_HIGH
    else if most == SlotSymbol.lemon || most == SlotSymbol.cherry then
      bet * SLOT_PAYOUT_FIVE_MID
    else -bet
  else if mc == 4 then bet * SLOT_PAYOUT_FOUR_MATCH
  else if mc == 3 then bet * SLOT_PAYOUT_THREE_MATCH
  else -bet

/-! ## Group pot settlement (cogs/group_pot.py: _run_group_pot_game)

Participants are indexed `0, …, n-1`; `rolls` holds each participant's
current roll (the participant dicts share this mutable store, so a re-roll
in the winners loop is visible to the losers loop and vice versa).
Randomness is an explicit stream `rng : Nat → Int` consumed sequentially;
the unbounded `while` loops take explicit fuel and return `none` when it
runs out. -/

/-- Python `max` over a nonempty list. -/
def listMax : List Int → Int
  | [] => 0
  | x :: xs => xs.foldl max x

/-- Python `min` over a nonempty list. -/
def listMin : List Int → Int
  | [] => 0
  | x :: xs => xs.foldl min x

/-- A participant's current roll. -/
def rollAt (rolls : List Int) (i : Nat) : Int := rolls.getD i 0

/-- `for w in tied: w["roll"] = random.randint(1, amount)` — re-roll every
index of the tied subset with fresh draws from the stream. -/
def rerollIdxs (rng : Nat → Int) (k : Nat) (rolls : List Int) (idxs : List Nat) :
    List Int × Nat :=
  idxs.foldl (fun acc i => (acc.1.set i (rng acc.2), acc.2 + 1)) (rolls, k)

/-- The winners tie-break loop: re-roll the tied subset until a unique
maximum exists among it. -/
def winnersReroll : Nat → (Nat → Int) → Nat → List Int → List Nat →
    Option (List Nat × List Int × Nat)
  | 0, _, _, _, _ => none
  | fuel + 1, rng, k, rolls, ws =>
    if ws.length ≤ 1 then some (ws, rolls, k)
    else
      let res := rerollIdxs rng k rolls ws
      let m := listMax (ws.map (rollAt res.1))
      winnersReroll fuel rng res.2 res.1 (ws.filter (fun i => rollAt res.1 i == m))

/-- The losers tie-break loop: re-roll the tied subset until a unique
minimum exists among it. -/
def losersReroll : Nat → (Nat → Int) → Nat → List Int → List Nat →
    Option (List Nat × List Int × Nat)
  | 0, _, _, _, _ => none
  | fuel + 1, rng, k, rolls, ls =>
    if ls.length ≤ 1 then some (ls, rolls, k)
    else
      let res := rerollIdxs rng k rolls ls
      let m := listMin (ls.map (rollAt res.1))
      losersReroll fuel rng res.2 res.1 (ls.filter (fun i => rollAt res.1 i == m))

structure PotOutcome where
  winner : Nat
  loser : Nat
  transfer : Int
  finalRolls : List Int
deriving DecidableEq, Repr

/-- The resolution phase of _run_group_pot_game: find the tied maximal and
minimal subsets of the initial rolls, run both re-roll loops, and read the
final rolls of `winners[0]` and `losers[0]`; the proposed transfer is
winner's final roll minus loser's final roll. -/
def run_group_pot (fuel : Nat) (rng : Nat → Int) (rolls0 : List Int) :
    Option PotOutcome :=
  let mx := listMax rolls0
  let mn := listMin rolls0
  let ws0 := (List.range rolls0.length).filter (fun i => rollAt rolls0 i == mx)
  let ls0 := (List.range rolls0.length).filter (fun i => rollAt rolls0 i == mn)
  match winnersReroll fuel rng 0 rolls0 ws0 with
  | none => none
  | some (ws1, rolls1, k1) =>
    match losersReroll fuel rng k1 rolls1 ls0 with
    | none => none
    | some (ls1, rolls2, _) =>
      match ws1, ls1 with
      | w :: _, l :: _ =>
        some ⟨w, l, rollAt rolls2 w - rollAt rolls2 l, rolls2⟩
      | _, _ => none

/-- The settlement step of _run_group_pot_game: `if transfer_amount > 0`,
debit the loser and credit the winner through the ledger; otherwise touch
nothing. -/
def settlePot (db : DB) (o : PotOutcome) (gid : Option Nat) : Except String DB :=
  if 0 < o.transfer then
    match update_user_balance db o.loser (-o.transfer)
        TransactionReason.GROUP_POT_LOSS gid with
    | .error e => .error e
    | .ok db1 =>
      update_user_balance db1 o.winner o.transfer TransactionReason.GROUP_POT_WIN gid
  else .ok db

/-! ## Helper lemmas about row lookup and the transaction log -/

theorem getUser_users_eq (l : List (Nat × UserRec)) (txns : List TransactionRec)
    (v : Nat) : getUser { users := l, transactions := txns : DB } v
      = ((l.find? (fun p => p.1 == v)).map Prod.snd) := rfl

/-- Lookup after a per-row, key-preserving update of one key. -/
theorem find?_map_rowUpdate (l : List (Nat × UserRec)) (uid v : Nat)
    (g : UserRec → UserRec) :
    (((l.map (fun p => if p.1 == uid then (p.1, g p.2) else p)).find?
        (fun p => p.1 == v)).map Prod.snd)
      = if v = uid
        then ((l.find? (fun p => p.1 == v)).map Prod.snd).map g
        else (l.find? (fun p => p.1 == v)).map Prod.snd := by
  induction l with
  | nil => by_cases h : v = uid <;> simp [h]
  | cons a l ih =>
    have hkey : ((if a.1 == uid then (a.1, g a.2) else a).1) = a.1 := by
      by_cases hu : a.1 = uid <;> simp [hu]
    by_cases hv : a.1 = v
    · have h1 : List.find? (fun p => p.1 == v)
          ((a :: l).map (fun p => if p.1 == uid then (p.1, g p.2) else p))
          = some (if a.1 == uid then (a.1, g a.2) else a) := by
        rw [List.map_cons]
        refine List.find?_cons_of_pos _ ?_
        rw [hkey]
        simpa using hv
      have h2 : List.find? (fun p => p.1 == v) (a :: l) = some a :=
        List.find?_cons_of_pos _ (by simp [hv])
      rw [h1, h2]
      by_cases hu : a.1 = uid
      · have hvu : v = uid := by rw [← hv, hu]
        simp [hvu, hu]
      · have hvu : ¬(v = uid) := fun hc => hu (by rw [hv, hc])
        simp [hvu, hu]
    · have h1 : List.find? (fun p => p.1 == v)
          ((a :: l).map (fun p => if p.1 == uid then (p.1, g p.2) else p))
          = List.find? (fun p => p.1 == v)
              (l.map (fun p => if p.1 == uid then (p.1, g p.2) else p)) := by
        rw [List.map_cons]
        refine List.find?_cons_of_neg _ ?_
        rw [hkey]
        simpa using hv
      have h2 : List.find? (fun p => p.1 == v) (a :: l)
          = List.find? (fun p => p.1 == v) l :=
        List.find?_cons_of_neg _ (by simp [hv])
      rw [h1, h2]
      exact ih

theorem getUser_setUser (db : DB) (uid v : Nat) (u1 : UserRec) :
    getUser (setUser db uid u1) v
      = if v = uid then (getUser db v).map (fun _ => u1) else getUser db v := by
  simpa [getUser, setUser] using find?_map_rowUpdate db.users uid v (fun _ => u1)

theorem getUser_update_last_daily (db : DB) (uid v : Nat) (now : LocalTime) :
    getUser (update_last_daily db uid now) v
      = if v = uid
        then (getUser db v).map (fun u => { u with last_daily := some now })
        else getUser db v := by
  simpa [getUser, update_last_daily] using
    find?_map_rowUpdate db.users uid v (fun u => { u with last_daily := some now })

theorem txnAmountSum_append (uid : Nat) (xs ys : List TransactionRec) :
    txnAmountSum uid (xs ++ ys) = txnAmountSum uid xs + txnAmountSum uid ys := by
  simp [txnAmountSum, List.filter_append]

theorem txnAmountSum_single (uid : Nat) (t : TransactionRec) :
    txnAmountSum uid [t] = if t.user_id = uid then t.amount else 0 := by
  by_cases h : t.user_id = uid <;> simp [txnAmountSum, h]

/-- The user record produced by one successful ledger mutation. -/
def appliedLedgerUser (u : UserRec) (amt : Int) : UserRec :=
  if 0 < amt then
    { u with balance := u.balance + amt,
             lifetime_earned := u.lifetime_earned + amt }
  else
    { u with balance := u.balance + amt,
             lifetime_lost := u.lifetime_lost + |amt| }

/-- Specification of one successful ledger mutation (the `some` branch of
crud.update_user_balance). -/
theorem update_user_balance_ok (db : DB) (uid : Nat) (amt : Int)
    (r : TransactionReason) (g : Option Nat) (u : UserRec)
    (h : getUser db uid = some u) :
    ∃ db1, update_user_balance db uid amt r g = Except.ok db1 ∧
      db1.transactions = db.transactions ++ [⟨uid, amt, r, g⟩] ∧
      (∃ u1, getUser db1 uid = some u1 ∧
        u1.balance = u.balance + amt ∧
        (0 < amt → u1.lifetime_earned = u.lifetime_earned + amt ∧
          u1.lifetime_lost = u.lifetime_lost) ∧
        (amt ≤ 0 → u1.lifetime_lost = u.lifetime_lost + |amt| ∧
          u1.lifetime_earned = u.lifetime_earned) ∧
        u1.last_daily = u.last_daily ∧ u1.daily_streak = u.daily_streak ∧
        u1.daily_streak_best = u.daily_streak_best) ∧
      (∀ v, v ≠ uid → getUser db1 v = getUser db v) := by
  have hstep : update_user_balance db uid amt r g = Except.ok
      { setUser db uid (appliedLedgerUser u amt) with
        transactions := db.transactions ++ [⟨uid, amt, r, g⟩] } := by
    rw [update_user_balance, h]
    rfl
  refine ⟨_, hstep, rfl,
    ⟨appliedLedgerUser u amt, ?_, ?_, ?_, ?_, ?_, ?_, ?_⟩, ?_⟩
  · show getUser (setUser db uid (appliedLedgerUser u amt)) uid
      = some (appliedLedgerUser u amt)
    rw [getUser_setUser]
    simp [h]
  · by_cases hpos : 0 < amt <;> simp [appliedLedgerUser, hpos]
  · intro hpos
    simp [appliedLedgerUser, hpos]
  · intro hneg
    have hpos : ¬(0 < amt) := by omega
    simp [appliedLedgerUser, hpos]
  · by_cases hpos : 0 < amt <;> simp [appliedLedgerUser, hpos]
  · by_cases hpos : 0 < amt <;> simp [appliedLedgerUser, hpos]
  · by_cases hpos : 0 < amt <;> simp [appliedLedgerUser, hpos]
  · intro v hv
    show getUser (setUser db uid (appliedLedgerUser u amt)) v = getUser db v
    rw [getUser_setUser]
    simp [hv]

/-- A mutation on an unknown account raises before touching anything. -/
theorem update_user_balance_unknown (db : DB) (uid : Nat) (amt : Int)
    (r : TransactionReason) (g : Option Nat) (h : getUser db uid = none) :
    update_user_balance db uid amt r g = Except.error "user not found" := by
  rw [update_user_balance, h]

/-- One `applyOp` step appends some (possibly empty) transaction suffix and
moves the account's balance by exactly the account's share of it. -/
theorem applyOp_balance (db : DB) (op : LedgerOp) (uid : Nat) (u : UserRec)
    (h : getUser db uid = some u) :
    ∃ extra u1, (applyOp db op).transactions = db.transactions ++ extra ∧
      getUser (applyOp db op) uid = some u1 ∧
      u1.balance = u.balance + txnAmountSum uid extra := by
  cases hop : getUser db op.uid with
  | none =>
    refine ⟨[], u, ?_, ?_, by simp [txnAmountSum]⟩ <;>
      simp [applyOp, update_user_balance_unknown db op.uid op.amount op.reason op.gid hop, h]
  | some v =>
    obtain ⟨db1, hok, htx, ⟨u1, hu1, hbal, _⟩, hother⟩ :=
      update_user_balance_ok db op.uid op.amount op.reason op.gid v hop
    have happ : applyOp db op = db1 := by simp [applyOp, hok]
    by_cases huid : uid = op.uid
    · have huv : u = v := by
        rw [huid] at h
        rw [h] at hop
        exact Option.some.inj hop
      refine ⟨[⟨op.uid, op.amount, op.reason, op.gid⟩], u1, ?_, ?_, ?_⟩
      · rw [happ]; exact htx
      · rw [happ, huid]; exact hu1
      · rw [txnAmountSum_single, if_pos huid.symm, hbal, huv]
    · refine ⟨[⟨op.uid, op.amount, op.reason, op.gid⟩], u, ?_, ?_, ?_⟩
      · rw [happ]; exact htx
      · rw [happ, hother uid huid]; exact h
      · rw [txnAmountSum_single, if_neg (fun hh => huid hh.symm)]
        omega

/-- Balance audit for an arbitrary mutation sequence: the final balance is
the starting balance plus the account's share of the appended log. -/
theorem applyOps_balance (ops : List LedgerOp) (db : DB) (uid : Nat) (u : UserRec)
    (h : getUser db uid = some u) :
    ∃ extra u1, (applyOps db ops).transactions = db.transactions ++ extra ∧
      getUser (applyOps db ops) uid = some u1 ∧
      u1.balance = u.balance + txnAmountSum uid extra := by
  induction ops generalizing db u with
  | nil => exact ⟨[], u, by simp [applyOps], by simpa [applyOps] using h, by simp [txnAmountSum]⟩
  | cons op ops ih =>
    obtain ⟨e1, u1, htx1, hu1, hb1⟩ := applyOp_balance db op uid u h
    obtain ⟨e2, u2, htx2, hu2, hb2⟩ := ih (applyOp db op) u1 hu1
    refine ⟨e1 ++ e2, u2, ?_, ?_, ?_⟩
    · rw [show applyOps db (op :: ops) = applyOps (applyOp db op) ops from rfl,
        htx2, htx1, List.append_assoc]
    · exact hu2
    · rw [hb2, hb1, txnAmountSum_append]
      omega

/-- crud.update_daily_streak on an account whose streak is broken. -/
theorem update_daily_streak_broken (db : DB) (uid : Nat) (now : LocalTime)
    (u : UserRec) (h : getUser db uid = some u)
    (hb : (check_daily_streak_status u.last_daily now).1 = true) :
    ∃ db1 b, update_daily_streak db uid now
      = Except.ok (db1, 1, calculate_daily_reward 1, b) := by
  rw [update_daily_streak, h]
  simp only [hb]
  exact ⟨_, _, rfl⟩

/-- crud.update_daily_streak on an account whose streak is intact. -/
theorem update_daily_streak_not_broken (db : DB) (uid : Nat) (now : LocalTime)
    (u : UserRec) (h : getUser db uid = some u)
    (hok : (check_daily_streak_status u.last_daily now).1 = false) :
    ∃ db1 b, update_daily_streak db uid now
      = Except.ok (db1, u.daily_streak + 1,
          calculate_daily_reward (u.daily_streak + 1), b) := by
  rw [update_daily_streak, h]
  simp only [hok]
  exact ⟨_, _, rfl⟩

/-! ## Helper lemmas about reset windows -/

@[simp] theorem LocalTime.day_mk (d m : Int) : (LocalTime.mk d m).day = d := rfl

@[simp] theorem LocalTime.minute_mk (d m : Int) : (LocalTime.mk d m).minute = m := rfl

theorem currentPeriodStart_le (t : LocalTime) (h : t.wf) :
    (currentPeriodStart t).toMin ≤ t.toMin := by
  obtain ⟨h1, h2⟩ := h
  simp only [currentPeriodStart, LocalTime.before, LocalTime.atHour, LocalTime.subDays,
    LocalTime.toMin, DAILY_RESET_HOUR, LocalTime.day_mk, LocalTime.minute_mk,
    decide_eq_true_eq]
  split_ifs <;> simp only [LocalTime.day_mk, LocalTime.minute_mk] <;> omega

theorem lt_nextReset (t : LocalTime) (h : t.wf) :
    t.toMin < (nextResetOf t).toMin := by
  obtain ⟨h1, h2⟩ := h
  simp only [nextResetOf, LocalTime.before, LocalTime.atHour, LocalTime.addDays,
    LocalTime.toMin, DAILY_RESET_HOUR, LocalTime.day_mk, LocalTime.minute_mk,
    decide_eq_true_eq]
  split_ifs <;> simp only [LocalTime.day_mk, LocalTime.minute_mk] <;> omega

theorem nextReset_eq_cps_add (t : LocalTime) :
    (nextResetOf t).toMin = (currentPeriodStart t).toMin + 1440 := by
  simp only [nextResetOf, currentPeriodStart, LocalTime.before, LocalTime.atHour,
    LocalTime.subDays, LocalTime.addDays, LocalTime.toMin, DAILY_RESET_HOUR,
    LocalTime.day_mk, LocalTime.minute_mk, decide_eq_true_eq]
  split_ifs <;> simp only [LocalTime.day_mk, LocalTime.minute_mk] <;> omega

theorem currentPeriodStart_minute (t : LocalTime) :
    (currentPeriodStart t).minute = 180 := by
  simp only [currentPeriodStart, LocalTime.before, LocalTime.atHour, LocalTime.subDays,
    DAILY_RESET_HOUR, LocalTime.day_mk, LocalTime.minute_mk, decide_eq_true_eq]
  split_ifs <;> norm_num

/-- Once "now" has crossed the next reset boundary, the then-current window
starts strictly after the old claim instant. -/
theorem cps_gt_of_crossed (now now' : LocalTime) (hnow : now.wf) (hnow' : now'.wf)
    (hge : (nextResetOf now).toMin ≤ now'.toMin) :
    now.toMin < (currentPeriodStart now').toMin := by
  obtain ⟨a1, a2⟩ := hnow
  obtain ⟨b1, b2⟩ := hnow'
  simp only [nextResetOf, currentPeriodStart, LocalTime.before, LocalTime.atHour,
    LocalTime.subDays, LocalTime.addDays, LocalTime.toMin, DAILY_RESET_HOUR,
    LocalTime.day_mk, LocalTime.minute_mk, decide_eq_true_eq] at *
  split_ifs at * <;> simp only [LocalTime.day_mk, LocalTime.minute_mk] at * <;> omega

theorem daysBetween_aligned (d1 d2 m : Int) :
    daysBetween ⟨d1, m⟩ ⟨d2, m⟩ = d1 - d2 := by
  have h : (⟨d1, m⟩ : LocalTime).toMin - (⟨d2, m⟩ : LocalTime).toMin
      = (d1 - d2) * 1440 := by
    simp [LocalTime.toMin]
    ring
  rw [daysBetween, h, Int.mul_fdiv_cancel _ (by norm_num)]

/-! ## Claim theorems -/

/-- Sample ledger rows used to witness theorems at concrete inputs. -/
def uW : UserRec := ⟨1000, 1000, 0, none, 0, 0⟩

def dbW : DB := ⟨[(1, uW)], []⟩

/-- A user whose daily streak is broken at `nowB` (last claim three reset
windows back), with enough balance for the insurance cost. -/
def uB : UserRec := ⟨30000, 30000, 0, some ⟨97, 200⟩, 5, 9⟩

def dbB : DB := ⟨[(1, uB)], []⟩

def nowB : LocalTime := ⟨100, 180⟩

/-- C4: for every account, `can_claim_daily` returns true iff the last
daily claim predates the start of the current reset window; it returns
false immediately after a claim, true again once "now" crosses the next
reset boundary, and claims at 02:59 and 03:01 local time on the same day
(reset hour 3) fall in different windows. -/
theorem C4_can_claim_daily_window :
    (∀ (last now : LocalTime),
        (can_claim_daily (some last) now).1 = true
          ↔ last.toMin < (currentPeriodStart now).toMin) ∧
    (∀ (db : DB) (uid : Nat) (now : LocalTime) (u : UserRec), now.wf →
        getUser db uid = some u →
        can_claim_daily_db (update_last_daily db uid now) uid now
          = Except.ok (false, some ((nextResetOf now).toMin - now.toMin))) ∧
    (∀ (now now' : LocalTime), now.wf → now'.wf →
        (nextResetOf now).toMin ≤ now'.toMin →
        (can_claim_daily (some now) now').1 = true) ∧
    (∀ d : Int, (can_claim_daily (some ⟨d, 179⟩) ⟨d, 181⟩).1 = true ∧
        currentPeriodStart ⟨d, 179⟩ ≠ currentPeriodStart ⟨d, 181⟩) := by
  refine ⟨?_, ?_, ?_, ?_⟩
  · intro last now
    by_cases hb : last.toMin < (currentPeriodStart now).toMin
    · simp [can_claim_daily, LocalTime.before, hb]
    · simp [can_claim_daily, LocalTime.before, hb]
  · intro db uid now u hwf h
    have hg := getUser_update_last_daily db uid uid now
    rw [if_pos rfl, h] at hg
    rw [can_claim_daily_db, hg]
    have hnb : ¬(now.toMin < (currentPeriodStart now).toMin) :=
      not_lt.mpr (currentPeriodStart_le now hwf)
    simp [can_claim_daily, LocalTime.before, hnb]
  · intro now now' h1 h2 hge
    have := cps_gt_of_crossed now now' h1 h2 hge
    simp [can_claim_daily, LocalTime.before, this]
  · intro d
    constructor
    · have hb : ((⟨d, 179⟩ : LocalTime)).toMin
          < (currentPeriodStart ⟨d, 181⟩).toMin := by
        simp only [currentPeriodStart, LocalTime.before, LocalTime.atHour,
          LocalTime.subDays, LocalTime.toMin, DAILY_RESET_HOUR, LocalTime.day_mk,
          LocalTime.minute_mk, decide_eq_true_eq]
        split_ifs <;> simp only [LocalTime.day_mk, LocalTime.minute_mk] <;> omega
      simp [can_claim_daily, LocalTime.before, hb]
    · simp only [currentPeriodStart, LocalTime.before, LocalTime.atHour,
        LocalTime.subDays, LocalTime.toMin, DAILY_RESET_HOUR, LocalTime.day_mk,
        LocalTime.minute_mk, LocalTime.mk.injEq, ne_eq, decide_eq_true_eq]
      split_ifs <;>
        simp only [LocalTime.day_mk, LocalTime.minute_mk, LocalTime.mk.injEq, not_and] <;>
        omega

/-- Witness for C4 at a concrete account and instant. -/
theorem C4_witness :
    can_claim_daily_db (update_last_daily dbW 1 ⟨0, 500⟩) 1 ⟨0, 500⟩
      = Except.ok (false, some ((nextResetOf ⟨0, 500⟩).toMin
          - (⟨0, 500⟩ : LocalTime).toMin)) :=
  C4_can_claim_daily_window.2.1 dbW 1 ⟨0, 500⟩ uW (by decide) (by decide)

/-- C5: advancing a streak yields 1 on a broken track and previous+1 on an
unbroken one, and the reward schedule is the base at streak 1, base plus
the 10% per-step bonus below the cap, and exactly the fixed cap reward for
every streak at or past the cap (daily cap 7, hourly cap 5). -/
theorem C5_advance_streak_reward_schedule :
    (∀ (db : DB) (uid : Nat) (now : LocalTime) (u : UserRec),
        getUser db uid = some u →
        (check_daily_streak_status u.last_daily now).1 = true →
        ∃ db1 r b, update_daily_streak db uid now = Except.ok (db1, 1, r, b)) ∧
    (∀ (db : DB) (uid : Nat) (now : LocalTime) (u : UserRec),
        getUser db uid = some u →
        (check_daily_streak_status u.last_daily now).1 = false →
        ∃ db1 b, update_daily_streak db uid now
          = Except.ok (db1, u.daily_streak + 1,
              calculate_daily_reward (u.daily_streak + 1), b)) ∧
    (∀ s : Int, 1 ≤ s → s < 7 →
        calculate_daily_reward s = DAILY_REWARD + 1000 * (s - 1)) ∧
    (∀ s : Int, 7 ≤ s → calculate_daily_reward s = DAILY_STREAK_DAY7_REWARD) ∧
    (∀ s : Int, 1 ≤ s → s < 5 →
        calculate_hourly_reward s = HOURLY_REWARD + 100 * (s - 1)) ∧
    (∀ s : Int, 5 ≤ s → calculate_hourly_reward s = HOURLY_STREAK_MAX_REWARD) := by
  refine ⟨?_, ?_, ?_, ?_, ?_, ?_⟩
  · intro db uid now u h hbroken
    obtain ⟨db1, b, hstep⟩ := update_daily_streak_broken db uid now u h hbroken
    exact ⟨db1, _, b, hstep⟩
  · intro db uid now u h hok
    exact update_daily_streak_not_broken db uid now u h hok
  · intro s h1 h2
    interval_cases s <;> decide
  · intro s h7
    have hs : ¬(s ≤ 0) := by omega
    rw [calculate_daily_reward]
    simp only [hs, if_false]
    rw [if_pos (by rw [DAILY_STREAK_MAX_BONUS_DAY]; omega)]
  · intro s h1 h2
    interval_cases s <;> decide
  · intro s h5
    have hs : ¬(s ≤ 0) := by omega
    rw [calculate_hourly_reward]
    simp only [hs, if_false]
    rw [if_pos (by rw [HOURLY_STREAK_MAX_BONUS_HOUR]; omega)]

/-- Witness for C5: a broken streak resets to 1 at a concrete account. -/
theorem C5_witness :
    ∃ db1 r b, update_daily_streak dbB 1 nowB = Except.ok (db1, 1, r, b) :=
  C5_advance_streak_reward_schedule.1 dbB 1 nowB uB (by decide) (by decide)

theorem currentPeriodStart_of_ge (t : LocalTime) (h : 180 ≤ t.minute) :
    currentPeriodStart t = ⟨t.day, 180⟩ := by
  unfold currentPeriodStart
  rw [if_neg ?_]
  · show LocalTime.atHour t DAILY_RESET_HOUR = _
    unfold LocalTime.atHour DAILY_RESET_HOUR
    norm_num
  · simp only [LocalTime.before, LocalTime.atHour, LocalTime.toMin, DAILY_RESET_HOUR,
      LocalTime.day_mk, LocalTime.minute_mk, decide_eq_true_eq]
    omega

/-- After a daily-insurance purchase at `now`, the rewritten timestamp
(one minute after the current window start) reads as an unbroken streak
from any instant in the immediately following window. -/
theorem check_streak_after_insurance (now now' : LocalTime)
    (h' : (currentPeriodStart now').toMin = (currentPeriodStart now).toMin + 1440) :
    check_daily_streak_status (some ((currentPeriodStart now).addMinutes 1)) now'
      = (false, 0) := by
  have hcm : (currentPeriodStart now).minute = 180 := currentPeriodStart_minute now
  have hcm' : (currentPeriodStart now').minute = 180 := currentPeriodStart_minute now'
  have hday : (currentPeriodStart now').day = (currentPeriodStart now).day + 1 := by
    have h2 := h'
    simp only [LocalTime.toMin, hcm, hcm'] at h2
    omega
  have hlastStart : currentPeriodStart ((currentPeriodStart now).addMinutes 1)
      = ⟨(currentPeriodStart now).day, 180⟩ := by
    rw [currentPeriodStart_of_ge]
    · rfl
    · simp [LocalTime.addMinutes, hcm]
  have hbefore : ((currentPeriodStart now).addMinutes 1).before
      (currentPeriodStart now') = true := by
    simp only [LocalTime.before, LocalTime.addMinutes, LocalTime.toMin,
      LocalTime.day_mk, LocalTime.minute_mk, decide_eq_true_eq]
    simp only [LocalTime.toMin] at h'
    omega
  rw [check_daily_streak_status, hbefore]
  simp only [Bool.not_true, Bool.false_eq_true, if_false, hlastStart]
  have hdb : daysBetween (currentPeriodStart now')
      ⟨(currentPeriodStart now).day, 180⟩ = 1 := by
    have hc' : currentPeriodStart now'
        = ⟨(currentPeriodStart now).day + 1, 180⟩ := by
      rcases hcc : currentPeriodStart now' with ⟨d', m'⟩
      rw [hcc] at hday hcm'
      simp only [LocalTime.day_mk, LocalTime.minute_mk] at hday hcm'
      rw [hday, hcm']
    rw [hc', daysBetween_aligned]
    omega
  rw [hdb]
  norm_num

/-- C6: an insurance purchase is rejected with no state change when the
streak is not broken, rejected with no state change when the balance is
below the cost, and on success the streak counters are untouched while the
balance drops by exactly the cost, so a claim in the following window
advances the streak to previous+1 instead of restarting at 1. -/
theorem C6_insurance_guards :
    (∀ (db : DB) (uid : Nat) (now : LocalTime) (u : UserRec),
        getUser db uid = some u →
        (check_daily_streak_status u.last_daily now).1 = false →
        purchase_daily_streak_insurance db uid now = Except.ok (false, db)) ∧
    (∀ (db : DB) (uid : Nat) (now : LocalTime) (u : UserRec),
        getUser db uid = some u →
        (check_daily_streak_status u.last_daily now).1 = true →
        u.balance < DAILY_STREAK_INSURANCE_COST →
        purchase_daily_streak_insurance db uid now = Except.ok (false, db)) ∧
    (∀ (db : DB) (uid : Nat) (now : LocalTime) (u : UserRec),
        getUser db uid = some u →
        (check_daily_streak_status u.last_daily now).1 = true →
        DAILY_STREAK_INSURANCE_COST ≤ u.balance →
        ∃ db1 u1, purchase_daily_streak_insurance db uid now = Except.ok (true, db1) ∧
          getUser db1 uid = some u1 ∧
          u1.daily_streak = u.daily_streak ∧
          u1.daily_streak_best = u.daily_streak_best ∧
          u1.balance = u.balance - DAILY_STREAK_INSURANCE_COST ∧
          (∀ now' : LocalTime,
            (currentPeriodStart now').toMin = (currentPeriodStart now).toMin + 1440 →
            ∃ db2 r b, update_daily_streak db1 uid now'
              = Except.ok (db2, u.daily_streak + 1, r, b))) := by
  refine ⟨?_, ?_, ?_⟩
  · intro db uid now u h hnb
    rw [purchase_daily_streak_insurance, h]
    simp [hnb]
  · intro db uid now u h hb hpoor
    rw [purchase_daily_streak_insurance, h]
    simp [hb, hpoor]
  · intro db uid now u h hb hrich
    obtain ⟨db1, hok1, _, ⟨u1, hu1, hbal, _, _, _, hds, hdsb⟩, _⟩ :=
      update_user_balance_ok db uid (-DAILY_STREAK_INSURANCE_COST)
        TransactionReason.DAILY_STREAK_INSURANCE none u h
    have hnotlt : ¬(u.balance < DAILY_STREAK_INSURANCE_COST) := not_lt.mpr hrich
    have hpur : purchase_daily_streak_insurance db uid now
        = Except.ok (true, update_last_daily db1 uid
            ((currentPeriodStart now).addMinutes 1)) := by
      rw [purchase_daily_streak_insurance, h]
      simp only [hb, Bool.not_true, Bool.false_eq_true, if_false, hnotlt, hok1]
    have hg := getUser_update_last_daily db1 uid uid
      ((currentPeriodStart now).addMinutes 1)
    rw [if_pos rfl, hu1] at hg
    have hg1 : getUser (update_last_daily db1 uid ((currentPeriodStart now).addMinutes 1)) uid
        = some { u1 with last_daily := some ((currentPeriodStart now).addMinutes 1) } := by
      rw [hg]
      rfl
    refine ⟨_, _, hpur, hg1, hds, hdsb,
      show u1.balance = u.balance - DAILY_STREAK_INSURANCE_COST by omega, ?_⟩
    intro now' hnext
    obtain ⟨db2, b2, hstep⟩ := update_daily_streak_not_broken _ uid now'
      { u1 with last_daily := some ((currentPeriodStart now).addMinutes 1) } hg1
      (congrArg Prod.fst (check_streak_after_insurance now now' hnext))
    dsimp only at hstep
    rw [hds] at hstep
    exact ⟨db2, _, b2, hstep⟩

/-- Witness for C6: successful purchase for a concrete broken-streak
account, followed by a next-window claim that advances the streak to 6. -/
theorem C6_witness :
    ∃ db1 u1, purchase_daily_streak_insurance dbB 1 nowB = Except.ok (true, db1) ∧
      getUser db1 1 = some u1 ∧
      u1.daily_streak = uB.daily_streak ∧
      u1.daily_streak_best = uB.daily_streak_best ∧
      u1.balance = uB.balance - DAILY_STREAK_INSURANCE_COST ∧
      (∀ now' : LocalTime,
        (currentPeriodStart now').toMin = (currentPeriodStart nowB).toMin + 1440 →
        ∃ db2 r b, update_daily_streak db1 1 now'
          = Except.ok (db2, uB.daily_streak + 1, r, b)) :=
  C6_insurance_guards.2.2 dbB 1 nowB uB (by decide) (by decide) (by decide)

/-- C3: the daily insurance rewrites the last-claim timestamp to one minute
after the start of the *current* reset window: at a purchase made exactly
at the reset instant (03:00), the synthetic timestamp (03:01) is not
strictly before "now", and it does not lie in the previous window at all
(it is not before the current window's start), contradicting the
specified placement; the code's own comment says "previous period". -/
theorem C3_insurance_timestamp_misplaced :
    (purchase_daily_streak_insurance dbB 1 nowB).map
        (fun r => (r.1, (getUser r.2 1).map UserRec.last_daily))
      = Except.ok (true, some (some ⟨100, 181⟩)) ∧
    ¬((⟨100, 181⟩ : LocalTime).toMin < nowB.toMin) ∧
    ¬((⟨100, 181⟩ : LocalTime).toMin < (currentPeriodStart nowB).toMin) := by
  decide

/-- C2: the five-skull spin pays `-bet * SLOT_PAYOUT_DEATH = +3*bet`, a
*gain* of triple the bet, although the code's comments, the config comment
and the result message all say "lose triple"; spins with largest
same-symbol count below 3 do lose exactly the bet. -/
theorem C2_five_skulls_payout :
    calculate_payout [SlotSymbol.skull, SlotSymbol.skull, SlotSymbol.skull,
        SlotSymbol.skull, SlotSymbol.skull] 100 = 300 ∧
    (∀ bet : Int, calculate_payout [SlotSymbol.skull, SlotSymbol.skull,
        SlotSymbol.skull, SlotSymbol.skull, SlotSymbol.skull] bet = 3 * bet) ∧
    (∀ bet : Int, calculate_payout [SlotSymbol.cherry, SlotSymbol.lemon,
        SlotSymbol.star, SlotSymbol.diamond, SlotSymbol.skull] bet = -bet) := by
  refine ⟨by decide, ?_, ?_⟩
  · intro bet
    have h5 : maxCount [SlotSymbol.skull, SlotSymbol.skull, SlotSymbol.skull,
        SlotSymbol.skull, SlotSymbol.skull] = 5 := by decide
    have hms : mostCommonSymbol [SlotSymbol.skull, SlotSymbol.skull, SlotSymbol.skull,
        SlotSymbol.skull, SlotSymbol.skull] = SlotSymbol.skull := by decide
    simp only [calculate_payout, h5, hms, SLOT_PAYOUT_DEATH]
    norm_num
    ring
  · intro bet
    have h1 : maxCount [SlotSymbol.cherry, SlotSymbol.lemon, SlotSymbol.star,
        SlotSymbol.diamond, SlotSymbol.skull] = 1 := by decide
    simp only [calculate_payout, h1]
    norm_num

/-! ## Counting lemmas for the rank query -/

theorem length_filter_mono {α : Type} (l : List α) (p q : α → Bool)
    (himp : ∀ x ∈ l, p x = true → q x = true) :
    (l.filter p).length ≤ (l.filter q).length := by
  revert himp
  induction l with
  | nil => intro _; simp
  | cons a l ih =>
    intro himp
    have ih' := ih (fun y hy hpy => himp y (List.mem_cons_of_mem a hy) hpy)
    by_cases hp : p a = true
    · have hq := himp a (List.mem_cons_self a l) hp
      rw [List.filter_cons_of_pos hp, List.filter_cons_of_pos hq]
      simp only [List.length_cons]
      omega
    · rw [List.filter_cons_of_neg hp]
      by_cases hq : q a = true
      · rw [List.filter_cons_of_pos hq]
        simp only [List.length_cons]
        omega
      · rw [List.filter_cons_of_neg hq]
        exact ih'

theorem length_filter_lt {α : Type} (l : List α) (p q : α → Bool)
    (x : α) (hqx : q x = true) (hpx : p x = false)
    (himp : ∀ y ∈ l, p y = true → q y = true) (hx : x ∈ l) :
    (l.filter p).length < (l.filter q).length := by
  revert himp hx
  induction l with
  | nil => intro _ hx; cases hx
  | cons a l ih =>
    intro himp hx
    have himp' := fun y hy hpy => himp y (List.mem_cons_of_mem a hy) hpy
    rcases List.mem_cons.mp hx with rfl | hxl
    · rw [List.filter_cons_of_neg (by simp [hpx]), List.filter_cons_of_pos hqx]
      have := length_filter_mono l p q himp'
      simp only [List.length_cons]
      omega
    · have hstep := ih himp' hxl
      by_cases hp : p a = true
      · have hq := himp a (List.mem_cons_self a l) hp
        rw [List.filter_cons_of_pos hp, List.filter_cons_of_pos hq]
        simp only [List.length_cons]
        omega
      · rw [List.filter_cons_of_neg hp]
        by_cases hq : q a = true
        · rw [List.filter_cons_of_pos hq]
          simp only [List.length_cons]
          omega
        · rw [List.filter_cons_of_neg hq]
          exact hstep

/-- A successful lookup names a row of the table. -/
theorem getUser_mem (db : DB) (a : Nat) (ua : UserRec)
    (h : getUser db a = some ua) : ∃ pr, pr ∈ db.users ∧ pr.2 = ua := by
  unfold getUser at h
  obtain ⟨pr, hfind, hsnd⟩ := Option.map_eq_some'.mp h
  exact ⟨pr, List.mem_of_find?_eq_some hfind, hsnd⟩

/-- C9: the rank-by-balance query gives rank 1 to the single richest
account, and the rank is strictly order-reversing on balances: a strictly
richer account gets a strictly smaller rank, and equal balances get equal
ranks. -/
theorem C9_rank_by_balance :
    (∀ (db : DB) (a b : Nat) (ua ub : UserRec),
        getUser db a = some ua → getUser db b = some ub →
        ub.balance < ua.balance →
        get_user_rank db a < get_user_rank db b) ∧
    (∀ (db : DB) (a b : Nat) (ua ub : UserRec),
        getUser db a = some ua → getUser db b = some ub →
        ua.balance = ub.balance →
        get_user_rank db a = get_user_rank db b) ∧
    (∀ (db : DB) (a : Nat) (ua : UserRec),
        getUser db a = some ua →
        (∀ p ∈ db.users, p.2.balance ≤ ua.balance) →
        get_user_rank db a = 1) := by
  refine ⟨?_, ?_, ?_⟩
  · intro db a b ua ub ha hb hlt
    simp only [get_user_rank, ha, hb]
    obtain ⟨pr, hmem, hsnd⟩ := getUser_mem db a ua ha
    have hcount := length_filter_lt db.users
      (fun p => decide (ua.balance < p.2.balance))
      (fun p => decide (ub.balance < p.2.balance))
      pr (by simp [hsnd, hlt]) (by simp [hsnd])
      (by intro y _ hpy; simp at hpy ⊢; omega)
      hmem
    omega
  · intro db a b ua ub ha hb heq
    simp only [get_user_rank, ha, hb]
    rw [List.filter_congr (fun y _ => by rw [heq])]
  · intro db a ua ha hmax
    simp only [get_user_rank, ha]
    rw [List.filter_eq_nil_iff.mpr ?_]
    · rfl
    · intro p hp
      have := hmax p hp
      simp only [decide_eq_true_eq]
      omega

/-- Witness for C9: equal-rank accounts in a concrete three-row table. -/
def dbR : DB :=
  ⟨[(1, uW), (2, { uW with balance := 5000 }), (3, { uW with balance := 5000 })], []⟩

theorem C9_witness :
    get_user_rank dbR 2 < get_user_rank dbR 1 ∧
    get_user_rank dbR 2 = get_user_rank dbR 3 ∧
    get_user_rank dbR 2 = 1 :=
  ⟨C9_rank_by_balance.1 dbR 2 1 { uW with balance := 5000 } uW
      (by decide) (by decide) (by decide),
   C9_rank_by_balance.2.1 dbR 2 3 { uW with balance := 5000 }
      { uW with balance := 5000 } (by decide) (by decide) (by decide),
   C9_rank_by_balance.2.2 dbR 2 { uW with balance := 5000 }
      (by decide) (by decide)⟩

/-! ## C1: ledger mutation and audit invariant -/

theorem find?_append_of_none {α : Type} (l : List α) (p : α → Bool) (x : α)
    (h : l.find? p = none) (hx : p x = true) : (l ++ [x]).find? p = some x := by
  revert h
  induction l with
  | nil =>
    intro _
    rw [List.nil_append]
    exact List.find?_cons_of_pos _ hx
  | cons a l ih =>
    intro h
    have ha : ¬(p a = true) := by
      intro hpa
      rw [List.find?_cons_of_pos _ hpa] at h
      cases h
    rw [List.find?_cons_of_neg _ ha] at h
    rw [List.cons_append, List.find?_cons_of_neg _ ha]
    exact ih h

theorem getUser_create (db : DB) (uid : Nat) (bal : Int)
    (h : getUser db uid = none) :
    getUser (create_user db uid bal) uid
      = some ⟨bal, bal, 0, none, 0, 0⟩ := by
  unfold getUser at *
  have hfind : db.users.find? (fun p => p.1 == uid) = none :=
    Option.map_eq_none'.mp h
  unfold create_user
  rw [find?_append_of_none _ _ _ hfind (by simp)]
  rfl

/-- C1: a ledger mutation adds the signed amount to the balance, bumps
`lifetime_earned` for credits and `lifetime_lost` (by the absolute value)
for debits, and appends exactly one transaction row carrying the amount;
an unknown account id fails with no change; over any mutation sequence on
one account, the final balance equals the starting balance plus the sum of
the transaction amounts appended for that account; account creation books
the starting balance through an initial-grant transaction. -/
theorem C1_ledger_audit :
    (∀ (db : DB) (uid : Nat) (amt : Int) (r : TransactionReason)
        (g : Option Nat) (u : UserRec),
      getUser db uid = some u →
      ∃ db1, update_user_balance db uid amt r g = Except.ok db1 ∧
        db1.transactions = db.transactions ++ [⟨uid, amt, r, g⟩] ∧
        (∃ u1, getUser db1 uid = some u1 ∧
          u1.balance = u.balance + amt ∧
          (0 < amt → u1.lifetime_earned = u.lifetime_earned + amt ∧
            u1.lifetime_lost = u.lifetime_lost) ∧
          (amt < 0 → u1.lifetime_lost = u.lifetime_lost + |amt| ∧
            u1.lifetime_earned = u.lifetime_earned)) ∧
        (∀ v, v ≠ uid → getUser db1 v = getUser db v)) ∧
    (∀ (db : DB) (uid : Nat) (amt : Int) (r : TransactionReason) (g : Option Nat),
      getUser db uid = none →
      update_user_balance db uid amt r g = Except.error "user not found") ∧
    (∀ (ops : List LedgerOp) (db : DB) (uid : Nat) (u : UserRec),
      getUser db uid = some u →
      ∃ extra u1, (applyOps db ops).transactions = db.transactions ++ extra ∧
        getUser (applyOps db ops) uid = some u1 ∧
        u1.balance = u.balance + txnAmountSum uid extra) ∧
    (∀ (db : DB) (uid : Nat) (bal : Int), getUser db uid = none →
      getUser (create_user db uid bal) uid = some ⟨bal, bal, 0, none, 0, 0⟩ ∧
      (create_user db uid bal).transactions = db.transactions
        ++ [⟨uid, bal, TransactionReason.INITIAL_GRANT, none⟩]) := by
  refine ⟨?_, ?_, ?_, ?_⟩
  · intro db uid amt r g u h
    obtain ⟨db1, h1, h2, ⟨u1, h3, h4, h5, h6, _⟩, h7⟩ :=
      update_user_balance_ok db uid amt r g u h
    exact ⟨db1, h1, h2, ⟨u1, h3, h4, h5, fun hlt => h6 (le_of_lt hlt)⟩, h7⟩
  · exact update_user_balance_unknown
  · exact applyOps_balance
  · intro db uid bal h
    exact ⟨getUser_create db uid bal h, rfl⟩

/-- Witness for C1: one credit on a concrete one-row ledger. -/
theorem C1_witness :
    ∃ db1, update_user_balance dbW 1 500 TransactionReason.SLOTS_WIN none
        = Except.ok db1 ∧
      db1.transactions = dbW.transactions
        ++ [⟨1, 500, TransactionReason.SLOTS_WIN, none⟩] ∧
      (∃ u1, getUser db1 1 = some u1 ∧
        u1.balance = uW.balance + 500 ∧
        (0 < (500 : Int) → u1.lifetime_earned = uW.lifetime_earned + 500 ∧
          u1.lifetime_lost = uW.lifetime_lost) ∧
        ((500 : Int) < 0 → u1.lifetime_lost = uW.lifetime_lost + |(500 : Int)| ∧
          u1.lifetime_earned = uW.lifetime_earned)) ∧
      (∀ v, v ≠ 1 → getUser db1 v = getUser dbW v) :=
  C1_ledger_audit.1 dbW 1 500 TransactionReason.SLOTS_WIN none uW (by decide)

/-! ## C7 / C10: tier ceilings -/

/-- Refinement reference written from the spec's words: the balance
ladder's ceiling as a plain ordered threshold table (upper bounds
inclusive, top tier open-ended). -/
def specBalanceCeiling (b : Int) : Int :=
  if b ≤ 100000 then 5000
  else if b ≤ 300000 then 15000
  else if b ≤ 750000 then 40000
  else if b ≤ 2000000 then 100000
  else if b ≤ 5000000 then 300000
  else if b ≤ 10000000 then 750000
  else 999999999

/-- Refinement reference written from the spec's words: the XP ladder's
ceiling (upper bounds exclusive, top tier open-ended). -/
def specXpCeiling (x : Int) : Int :=
  if x < 5000 then 5000
  else if x < 20000 then 15000
  else if x < 75000 then 40000
  else if x < 250000 then 100000
  else if x < 750000 then 300000
  else if x < 2000000 then 750000
  else 999999999

theorem get_balance_tier_ceiling (b : Int) (hb : 0 ≤ b) :
    (get_balance_tier b).max_bet = specBalanceCeiling b := by
  unfold get_balance_tier TIER_DEFINITIONS firstTier specBalanceCeiling
  by_cases h1 : b ≤ 100000
  · rw [List.find?_cons_of_pos _ (show matchesBalance b ⟨1, 5000, 0, some 100000, 0, some 5000⟩ = true by simp [matchesBalance]; omega)]
    simp [h1]
  · rw [List.find?_cons_of_neg _ (show ¬matchesBalance b ⟨1, 5000, 0, some 100000, 0, some 5000⟩ = true by simp [matchesBalance]; omega)]
    by_cases h2 : b ≤ 300000
    · rw [List.find?_cons_of_pos _ (show matchesBalance b ⟨2, 15000, 100001, some 300000, 5000, some 20000⟩ = true by simp [matchesBalance]; omega)]
      simp [h1, h2]
    · rw [List.find?_cons_of_neg _ (show ¬matchesBalance b ⟨2, 15000, 100001, some 300000, 5000, some 20000⟩ = true by simp [matchesBalance]; omega)]
      by_cases h3 : b ≤ 750000
      · rw [List.find?_cons_of_pos _ (show matchesBalance b ⟨3, 40000, 300001, some 750000, 20000, some 75000⟩ = true by simp [matchesBalance]; omega)]
        simp [h1, h2, h3]
      · rw [List.find?_cons_of_neg _ (show ¬matchesBalance b ⟨3, 40000, 300001, some 750000, 20000, some 75000⟩ = true by simp [matchesBalance]; omega)]
        by_cases h4 : b ≤ 2000000
        · rw [List.find?_cons_of_pos _ (show matchesBalance b ⟨4, 100000, 750001, some 2000000, 75000, some 250000⟩ = true by simp [matchesBalance]; omega)]
          simp [h1, h2, h3, h4]
        · rw [List.find?_cons_of_neg _ (show ¬matchesBalance b ⟨4, 100000, 750001, some 2000000, 75000, some 250000⟩ = true by simp [matchesBalance]; omega)]
          by_cases h5 : b ≤ 5000000
          · rw [List.find?_cons_of_pos _ (show matchesBalance b ⟨5, 300000, 2000001, some 5000000, 250000, some 750000⟩ = true by simp [matchesBalance]; omega)]
            simp [h1, h2, h3, h4, h5]
          · rw [List.find?_cons_of_neg _ (show ¬matchesBalance b ⟨5, 300000, 2000001, some 5000000, 250000, some 750000⟩ = true by simp [matchesBalance]; omega)]
            by_cases h6 : b ≤ 10000000
            · rw [List.find?_cons_of_pos _ (show matchesBalance b ⟨6, 750000, 5000001, some 10000000, 750000, some 2000000⟩ = true by simp [matchesBalance]; omega)]
              simp [h1, h2, h3, h4, h5, h6]
            · rw [List.find?_cons_of_neg _ (show ¬matchesBalance b ⟨6, 750000, 5000001, some 10000000, 750000, some 2000000⟩ = true by simp [matchesBalance]; omega)]
              rw [List.find?_cons_of_pos _ (show matchesBalance b ⟨7, 999999999, 10000001, none, 2000000, none⟩ = true by simp [matchesBalance]; omega)]
              simp [h1, h2, h3, h4, h5, h6]

theorem get_level_tier_ceiling (x : Int) (hx : 0 ≤ x) :
    (get_level_tier x).max_bet = specXpCeiling x := by
  unfold get_level_tier TIER_DEFINITIONS firstTier specXpCeiling
  by_cases h1 : x < 5000
  · rw [List.find?_cons_of_pos _ (show matchesXp x ⟨1, 5000, 0, some 100000, 0, some 5000⟩ = true by simp [matchesXp]; omega)]
    simp [h1]
  · rw [List.find?_cons_of_neg _ (show ¬matchesXp x ⟨1, 5000, 0, some 100000, 0, some 5000⟩ = true by simp [matchesXp]; omega)]
    by_cases h2 : x < 20000
    · rw [List.find?_cons_of_pos _ (show matchesXp x ⟨2, 15000, 100001, some 300000, 5000, some 20000⟩ = true by simp [matchesXp]; omega)]
      simp [h1, h2]
    · rw [List.find?_cons_of_neg _ (show ¬matchesXp x ⟨2, 15000, 100001, some 300000, 5000, some 20000⟩ = true by simp [matchesXp]; omega)]
      by_cases h3 : x < 75000
      · rw [List.find?_cons_of_pos _ (show matchesXp x ⟨3, 40000, 300001, some 750000, 20000, some 75000⟩ = true by simp [matchesXp]; omega)]
        simp [h1, h2, h3]
      · rw [List.find?_cons_of_neg _ (show ¬matchesXp x ⟨3, 40000, 300001, some 750000, 20000, some 75000⟩ = true by simp [matchesXp]; omega)]
        by_cases h4 : x < 250000
        · rw [List.find?_cons_of_pos _ (show matchesXp x ⟨4, 100000, 750001, some 2000000, 75000, some 250000⟩ = true by simp [matchesXp]; omega)]
          simp [h1, h2, h3, h4]
        · rw [List.find?_cons_of_neg _ (show ¬matchesXp x ⟨4, 100000, 750001, some 2000000, 75000, some 250000⟩ = true by simp [matchesXp]; omega)]
          by_cases h5 : x < 750000
          · rw [List.find?_cons_of_pos _ (show matchesXp x ⟨5, 300000, 2000001, some 5000000, 250000, some 750000⟩ = true by simp [matchesXp]; omega)]
            simp [h1, h2, h3, h4, h5]
          · rw [List.find?_cons_of_neg _ (show ¬matchesXp x ⟨5, 300000, 2000001, some 5000000, 250000, some 750000⟩ = true by simp [matchesXp]; omega)]
            by_cases h6 : x < 2000000
            · rw [List.find?_cons_of_pos _ (show matchesXp x ⟨6, 750000, 5000001, some 10000000, 750000, some 2000000⟩ = true by simp [matchesXp]; omega)]
              simp [h1, h2, h3, h4, h5, h6]
            · rw [List.find?_cons_of_neg _ (show ¬matchesXp x ⟨6, 750000, 5000001, some 10000000, 750000, some 2000000⟩ = true by simp [matchesXp]; omega)]
              rw [List.find?_cons_of_pos _ (show matchesXp x ⟨7, 999999999, 10000001, none, 2000000, none⟩ = true by simp [matchesXp]; omega)]
              simp [h1, h2, h3, h4, h5, h6]

/-- C7: with bet limits enabled, the effective maximum bet is the minimum
of the two ladder ceilings, each computed independently from its own
ordered tier table, including inputs exactly at tier thresholds. -/
theorem C7_effective_max_bet :
    (∀ balance xp : Int, get_max_bet_limit true balance xp
        = min (get_balance_tier balance).max_bet (get_level_tier xp).max_bet) ∧
    (∀ balance xp : Int, 0 ≤ balance → 0 ≤ xp →
        get_max_bet_limit true balance xp
          = min (specBalanceCeiling balance) (specXpCeiling xp)) ∧
    ((get_balance_tier 100000).max_bet = 5000 ∧
     (get_balance_tier 100001).max_bet = 15000 ∧
     (get_level_tier 4999).max_bet = 5000 ∧
     (get_level_tier 5000).max_bet = 15000) := by
  refine ⟨fun b x => rfl, ?_, by decide, by decide, by decide, by decide⟩
  intro b x hb hx
  show min (get_balance_tier b).max_bet (get_level_tier x).max_bet = _
  rw [get_balance_tier_ceiling b hb, get_level_tier_ceiling x hx]

/-- Witness for C7 at the first balance threshold and an XP threshold. -/
theorem C7_witness :
    get_max_bet_limit true 100000 5000
      = min (specBalanceCeiling 100000) (specXpCeiling 5000) :=
  C7_effective_max_bet.2.1 100000 5000 (by decide) (by decide)

/-- C10: the tier lookups are total: a value matching no range (any
negative balance or XP) falls back to the lowest tier instead of failing,
and for such inputs the effective maximum bet is bounded by the lowest
tier's ceiling. -/
theorem C10_tier_lookup_total :
    (∀ b : Int, b < 0 → TIER_DEFINITIONS.find? (matchesBalance b) = none ∧
        get_balance_tier b = firstTier) ∧
    (∀ x : Int, x < 0 → TIER_DEFINITIONS.find? (matchesXp x) = none ∧
        get_level_tier x = firstTier) ∧
    (∀ b x : Int, b < 0 ∨ x < 0 →
        get_max_bet_limit true b x ≤ firstTier.max_bet) := by
  have hbal : ∀ b : Int, b < 0 →
      TIER_DEFINITIONS.find? (matchesBalance b) = none := by
    intro b hb
    rw [List.find?_eq_none]
    intro t ht
    fin_cases ht <;> simp [matchesBalance, firstTier] <;> omega
  have hxp : ∀ x : Int, x < 0 →
      TIER_DEFINITIONS.find? (matchesXp x) = none := by
    intro x hx
    rw [List.find?_eq_none]
    intro t ht
    fin_cases ht <;> simp [matchesXp, firstTier] <;> omega
  have hbt : ∀ b : Int, b < 0 → get_balance_tier b = firstTier := by
    intro b hb
    rw [get_balance_tier, hbal b hb]
  have hxt : ∀ x : Int, x < 0 → get_level_tier x = firstTier := by
    intro x hx
    rw [get_level_tier, hxp x hx]
  refine ⟨fun b hb => ⟨hbal b hb, hbt b hb⟩, fun x hx => ⟨hxp x hx, hxt x hx⟩, ?_⟩
  intro b x h
  show min (get_balance_tier b).max_bet (get_level_tier x).max_bet
      ≤ firstTier.max_bet
  cases h with
  | inl hb =>
    rw [hbt b hb]
    exact min_le_left _ _
  | inr hx =>
    rw [hxt x hx]
    exact min_le_right _ _

/-- Witness for C10 at a concrete negative balance and XP. -/
theorem C10_witness :
    TIER_DEFINITIONS.find? (matchesBalance (-7)) = none ∧
    get_balance_tier (-7) = firstTier :=
  C10_tier_lookup_total.1 (-7) (by decide)

/-! ## C8: group pot settlement -/

/-- Equal-wager participants for the group-pot witnesses. -/
def uP (bal : Int) : UserRec := ⟨bal, bal, 0, none, 0, 0⟩

def dbP : DB := ⟨[(0, uP 1000), (1, uP 2000), (2, uP 3000)], []⟩

/-- C8 (amended): once the re-roll loops have produced the unique winner
and unique loser, the settlement moves exactly `winner's final roll minus
loser's final roll` from the loser to the winner *when that spread is
positive* — two ledger rows, every other balance untouched; when re-rolls
leave the winner's final roll at or below the loser's, no transfer happens
at all and no balance changes. -/
theorem C8_group_pot_settlement :
    ∀ (fuel : Nat) (rng : Nat → Int) (rolls : List Int) (db : DB)
      (o : PotOutcome) (gid : Option Nat) (wu lu : UserRec),
      run_group_pot fuel rng rolls = some o →
      getUser db o.winner = some wu →
      getUser db o.loser = some lu →
      o.winner ≠ o.loser →
      (0 < o.transfer →
        ∃ db2 wu2 lu2, settlePot db o gid = Except.ok db2 ∧
          getUser db2 o.winner = some wu2 ∧
          wu2.balance = wu.balance + o.transfer ∧
          getUser db2 o.loser = some lu2 ∧
          lu2.balance = lu.balance - o.transfer ∧
          (∀ v, v ≠ o.winner → v ≠ o.loser → getUser db2 v = getUser db v) ∧
          db2.transactions = db.transactions ++
            [⟨o.loser, -o.transfer, TransactionReason.GROUP_POT_LOSS, gid⟩,
             ⟨o.winner, o.transfer, TransactionReason.GROUP_POT_WIN, gid⟩]) ∧
      (o.transfer ≤ 0 → settlePot db o gid = Except.ok db) := by
  intro fuel rng rolls db o gid wu lu hrun hw hl hne
  constructor
  · intro hpos
    obtain ⟨db1, hok1, htx1, ⟨lu1, hlu1, hlbal, _⟩, hoth1⟩ :=
      update_user_balance_ok db o.loser (-o.transfer)
        TransactionReason.GROUP_POT_LOSS gid lu hl
    have hw1 : getUser db1 o.winner = some wu := by
      rw [hoth1 o.winner hne]
      exact hw
    obtain ⟨db2, hok2, htx2, ⟨wu2, hwu2, hwbal, _⟩, hoth2⟩ :=
      update_user_balance_ok db1 o.winner o.transfer
        TransactionReason.GROUP_POT_WIN gid wu hw1
    have hset : settlePot db o gid = Except.ok db2 := by
      rw [settlePot, if_pos hpos, hok1]
      exact hok2
    have hl2 : getUser db2 o.loser = some lu1 := by
      rw [hoth2 o.loser (fun hh => hne hh.symm)]
      exact hlu1
    refine ⟨db2, wu2, lu1, hset, hwu2, hwbal, hl2, by omega, ?_, ?_⟩
    · intro v hvw hvl
      rw [hoth2 v hvw, hoth1 v hvl]
    · rw [htx2, htx1, List.append_assoc]
      rfl
  · intro hle
    rw [settlePot, if_neg (not_lt.mpr hle)]

/-- Counterexample to C8 as stated: initial rolls `[10, 50, 50]` tie the
two 50s for the win; the re-roll draws 2 and 3, so the unique winner's
final roll (3) is below the unique loser's (10).  The proposed transfer is
negative and the `transfer_amount > 0` guard skips settlement entirely: no
one is debited or credited, although a unique winner and loser exist. -/
theorem C8_counterexample :
    run_group_pot 8 (fun n => if n == 0 then 2 else 3) [10, 50, 50]
      = some ⟨2, 0, -7, [10, 2, 3]⟩ ∧
    settlePot dbP ⟨2, 0, -7, [10, 2, 3]⟩ none = Except.ok dbP := by
  constructor
  · decide
  · decide

/-- Witness for C8 on a tie-free resolution with a positive spread. -/
theorem C8_witness :
    (0 < (40 : Int) →
      ∃ db2 wu2 lu2,
        settlePot dbP ⟨2, 0, 40, [10, 30, 50]⟩ none = Except.ok db2 ∧
        getUser db2 2 = some wu2 ∧ wu2.balance = (uP 3000).balance + 40 ∧
        getUser db2 0 = some lu2 ∧ lu2.balance = (uP 1000).balance - 40 ∧
        (∀ v, v ≠ 2 → v ≠ 0 → getUser db2 v = getUser dbP v) ∧
        db2.transactions = dbP.transactions ++
          [⟨0, -40, TransactionReason.GROUP_POT_LOSS, none⟩,
           ⟨2, 40, TransactionReason.GROUP_POT_WIN, none⟩]) ∧
    ((40 : Int) ≤ 0 →
      settlePot dbP ⟨2, 0, 40, [10, 30, 50]⟩ none = Except.ok dbP) :=
  C8_group_pot_settlement 2 (fun _ => 0) [10, 30, 50] dbP
    ⟨2, 0, 40, [10, 30, 50]⟩ none (uP 3000) (uP 1000)
    (by decide) (by decide) (by decide) (by decide)

end Casino
